import Mathlib

/-!
Verification of the istari purchase-intent inference core.

This file gives a shallow embedding of the core data model and algorithms of
the istari library (event timelines, heuristic rules, the rule-based scorer and
inference engine, the confidence calculator and the trajectory state machine)
and proves the testable properties stated in the specification.

Modelling conventions:
* Python `datetime` values are rational numbers of seconds (`ℚ`); a
  `timedelta.total_seconds()` is then plain subtraction.
* Python `float` is modelled as `ℚ` (all arithmetic in the core is exact
  decimal arithmetic on small constants).
* Python `dict`s with insertion order are association lists
  (`List (String × ℚ)`); assignment updates an existing key in place and
  otherwise appends, mirroring CPython semantics.
* Python strings that undergo structural operations (`str.split`) are lists of
  characters; identifiers kept whole stay `String`.
* A raised exception is an `Err` value; a method that mutates `self` and can
  raise returns the state at exit (Python leaves partial mutations in place)
  together with the raised error, if any.
* `list.sort(key=...)` is a stable sort by the key; `List.insertionSort` is
  stable, hence produces the very list CPython's stable sort produces.
-/

namespace Istari

/-- Canonical event record (`src/istari/core/events.py`).  Only numeric
properties are kept; the core never reads any other property shape.  The
`source`/`raw_data` metadata fields are never consulted by the core and are
omitted. -/
structure Event where
  event_type : String
  timestamp : ℚ
  user_id : String
  session_id : String
  properties : List (String × ℚ)
deriving DecidableEq

/-- The key comparison used by `self._events.sort(key=lambda e: e.timestamp)`. -/
def tsLE (a b : Event) : Prop := a.timestamp ≤ b.timestamp

instance : DecidableRel tsLE := fun a b => inferInstanceAs (Decidable (a.timestamp ≤ b.timestamp))

/-- Python's `list.sort(key=lambda e: e.timestamp)`: a stable sort ascending by
timestamp.  Insertion sort is stable, so it computes the same list. -/
def sortByTs (l : List Event) : List Event := List.insertionSort tsLE l

/-- Python `Timeline` (`src/istari/core/timeline.py`): the `_events` list. -/
structure Timeline where
  events : List Event
deriving DecidableEq

/-- A `Timeline()` with no events. -/
def Timeline.empty : Timeline := ⟨[]⟩

/-- Python `Timeline.add_event`: append then re-sort by timestamp. -/
def Timeline.add_event (t : Timeline) (e : Event) : Timeline :=
  ⟨sortByTs (t.events ++ [e])⟩

/-- Python `Timeline.add_events`: extend then re-sort by timestamp. -/
def Timeline.add_events (t : Timeline) (es : List Event) : Timeline :=
  ⟨sortByTs (t.events ++ es)⟩

/-- Python `Timeline(events)`: the constructor routes its argument through
`add_events`. -/
def Timeline.init (es : List Event) : Timeline := Timeline.empty.add_events es

/-- Python `Timeline.get_time_gaps`: seconds between consecutive events (empty for
fewer than two events). -/
def Timeline.get_time_gaps (t : Timeline) : List ℚ :=
  List.zipWith (fun a b => b.timestamp - a.timestamp) t.events t.events.tail

/-- Exceptions raised by the core: `SessionError` on a session-mismatch append,
`ValueError` from a constructor validation. -/
inductive Err where
  | sessionError (msg : String)
  | valueError (msg : String)
deriving DecidableEq

/-- Python `Session` (`src/istari/core/session.py`).  The `intent_states`,
`transitions` and `metadata` fields are never read by the inference code
verified here and are omitted. -/
structure Session where
  session_id : String
  user_id : String
  started_at : ℚ
  timeline : Timeline
deriving DecidableEq

/-- Python `Session.add_event`: validate the event's ids against the session, then
append to the timeline. -/
def Session.add_event (s : Session) (e : Event) : Except Err Session :=
  if e.session_id ≠ s.session_id then
    .error (.sessionError ("Event session_id " ++ e.session_id ++ " doesn't match session " ++ s.session_id))
  else if e.user_id ≠ s.user_id then
    .error (.sessionError ("Event user_id " ++ e.user_id ++ " doesn't match session user " ++ s.user_id))
  else
    .ok { s with timeline := s.timeline.add_event e }

/-- Python `Session.add_events`: a plain loop of `add_event`.  A raised error aborts
the loop and leaves the events already processed in the timeline; the result is
the session state at exit together with the error, if one was raised. -/
def Session.add_events (s : Session) : List Event → Session × Option Err
  | [] => (s, none)
  | e :: rest =>
    match s.add_event e with
    | .ok s2 => s2.add_events rest
    | .error er => (s, some er)

/-- The id checks performed by `Session.add_event`. -/
def eventMatches (s : Session) (e : Event) : Prop :=
  e.session_id = s.session_id ∧ e.user_id = s.user_id

instance (s : Session) (e : Event) : Decidable (eventMatches s e) :=
  inferInstanceAs (Decidable (_ ∧ _))

/-- One mutation of a `Timeline` (used to quantify over arbitrary insertion
sequences). -/
inductive TimelineOp where
  | one (e : Event)
  | many (es : List Event)

/-- Run one `TimelineOp`. -/
def applyOp (t : Timeline) : TimelineOp → Timeline
  | .one e => t.add_event e
  | .many es => t.add_events es

/-- Run a sequence of `TimelineOp`s. -/
def applyOps (t : Timeline) (ops : List TimelineOp) : Timeline :=
  ops.foldl applyOp t

/-- The sortedness invariant of a timeline: ascending by timestamp. -/
def tsSorted (l : List Event) : Prop := l.Pairwise tsLE

/-- Python `IntentState` (`src/istari/core/intent_state.py`).  `evidence` strings are
lists of characters (they are produced by `str.split`); the `metadata` and
`properties` dicts are never read by the verified code and are omitted. -/
structure IntentState where
  state_type : String
  timestamp : ℚ
  confidence : ℚ
  attributions : List (String × ℚ)
  evidence : List (List Char)
deriving DecidableEq

/-- Python `IntentState.__post_init__`: the constructor validates
`0.0 <= confidence <= 1.0` and raises `ValueError` otherwise. -/
def IntentState.mk? (st : String) (ts c : ℚ) (att : List (String × ℚ))
    (ev : List (List Char)) : Option IntentState :=
  if 0 ≤ c ∧ c ≤ 1 then some ⟨st, ts, c, att, ev⟩ else none

/-- Python `Score` (`src/istari/core/scoring.py`). -/
structure Score where
  state_type : String
  score : ℚ
  confidence : ℚ
  factors : List (String × ℚ)
  explanation : List Char
deriving DecidableEq

/-- Python `Score.__post_init__`: validates `0.0 <= confidence <= 1.0`. -/
def Score.mk? (st : String) (sc c : ℚ) (fs : List (String × ℚ))
    (ex : List Char) : Option Score :=
  if 0 ≤ c ∧ c ≤ 1 then some ⟨st, sc, c, fs, ex⟩ else none

/-- Python `Transition` (`src/istari/core/transition.py`). -/
structure Transition where
  from_state : IntentState
  to_state : IntentState
  timestamp : ℚ
  transition_type : String
  confidence : ℚ
deriving DecidableEq

/-- Python `Transition.__post_init__`: validates the timestamp order and the
confidence range. -/
def Transition.mk? (f t : IntentState) (ts : ℚ) (tt : String) (c : ℚ) : Option Transition :=
  if f.timestamp ≤ t.timestamp then
    if 0 ≤ c ∧ c ≤ 1 then some ⟨f, t, ts, tt, c⟩ else none
  else none

/-- Python `Scorer.normalize_confidence` (`src/istari/core/scoring.py`): 0.5 when the
bounds coincide, otherwise the affine rescaling clamped into `[0, 1]`. -/
def normalize_confidence (raw_score min_score max_score : ℚ) : ℚ :=
  if max_score = min_score then 0.5
  else max 0 (min 1 ((raw_score - min_score) / (max_score - min_score)))

/-- A heuristic rule (`src/istari/inference/heuristics.py`): name, weight and
the `matches`/`evaluate` methods of the `HeuristicRule` interface. -/
structure HeuristicRule where
  name : String
  weight : ℚ
  matchesFn : String → Session → Bool
  evaluate : Session → ℚ

/-- Python `HeuristicRule.get_weight`. -/
def HeuristicRule.get_weight (r : HeuristicRule) : ℚ := r.weight

/-- Python `BrowsingRule`: weight 1.0; 0.8/0.5/0.2 by page-view count thresholds. -/
def BrowsingRule : HeuristicRule where
  name := "browsing_rule"
  weight := 1.0
  matchesFn := fun st _ => st == "browsing"
  evaluate := fun s =>
    let page_views := (s.timeline.events.filter (fun e => e.event_type == "page_view")).length
    if page_views ≥ 3 then 0.8 else if page_views ≥ 1 then 0.5 else 0.2

/-- Python `PurchaseReadyRule`: weight 1.5; 0.9 with a checkout event, 0.7 with only
an add-to-cart, else 0.1. -/
def PurchaseReadyRule : HeuristicRule where
  name := "purchase_ready_rule"
  weight := 1.5
  matchesFn := fun st _ => st == "purchase_ready"
  evaluate := fun s =>
    let evs := s.timeline.events
    let has_add_to_cart := evs.any (fun e => e.event_type == "add_to_cart")
    let has_checkout := evs.any (fun e => e.event_type == "checkout_started" || e.event_type == "checkout_completed")
    if has_checkout then 0.9 else if has_add_to_cart then 0.7 else 0.1

/-- Python `AbandonmentRiskRule`: weight 1.2; 0.8 on a cart removal, 0.7 on cart-add
plus a gap over 300 s, 0.5 on any gap over 300 s, else 0.2. -/
def AbandonmentRiskRule : HeuristicRule where
  name := "abandonment_risk_rule"
  weight := 1.2
  matchesFn := fun st _ => st == "abandonment_risk"
  evaluate := fun s =>
    let evs := s.timeline.events
    let has_add_to_cart := evs.any (fun e => e.event_type == "add_to_cart")
    let has_remove_from_cart := evs.any (fun e => e.event_type == "remove_from_cart")
    let long_gaps := s.timeline.get_time_gaps.filter (fun g => g > 300)
    if has_remove_from_cart then 0.8
    else if has_add_to_cart && !long_gaps.isEmpty then 0.7
    else if !long_gaps.isEmpty then 0.5
    else 0.2

/-- Python dict assignment `score.factors[name] = contribution`: update an
existing key in place, otherwise append (insertion order preserved). -/
def updateFactor (fs : List (String × ℚ)) (k : String) (v : ℚ) : List (String × ℚ) :=
  if fs.any (fun p => p.1 == k) then fs.map (fun p => if p.1 == k then (k, v) else p)
  else fs ++ [(k, v)]

/-- The `f"{score:.2%}"` formatting of a factor contribution.  The exact digit
rendering is irrelevant to every verified property; the model renders the
scaled rational followed by a percent sign. -/
def fmtPercent (q : ℚ) : List Char := (toString (q * 100)).toList ++ ['%']

/-- Python `", ".join(...)`. -/
def joinSep (sep : List Char) : List (List Char) → List Char
  | [] => []
  | [x] => x
  | x :: y :: rest => x ++ sep ++ joinSep sep (y :: rest)

/-- The `factors_str` interpolation of `RuleScorer.score`. -/
def factorsStr (fs : List (String × ℚ)) : List Char :=
  joinSep ", ".toList (fs.map (fun p => p.1.toList ++ " (".toList ++ fmtPercent p.2 ++ [')']))

/-- The explanation string
`f"Inferred {state_type} based on: {factors_str}"`. -/
def explanationOf (st : String) (fs : List (String × ℚ)) : List Char :=
  "Inferred ".toList ++ st.toList ++ " based on: ".toList ++ factorsStr fs

/-- One iteration of the rule loop in `RuleScorer.score`: if the rule matches,
record its factor and accumulate the weighted contribution and the weight. -/
def scoreStep (state_type : String) (s : Session)
    (acc : List (String × ℚ) × ℚ × ℚ) (r : HeuristicRule) : List (String × ℚ) × ℚ × ℚ :=
  if r.matchesFn state_type s then
    (updateFactor acc.1 r.name (r.evaluate s),
     acc.2.1 + r.evaluate s * r.get_weight,
     acc.2.2 + r.get_weight)
  else acc

/-- Python `RuleScorer.score` (`src/istari/inference/rules.py`): accumulate weighted
rule contributions, normalize to a confidence when any weight accrued, and
attach the generated explanation. -/
def RuleScorer.score (state_type : String) (s : Session) (rules : List HeuristicRule) : Score :=
  let acc := rules.foldl (scoreStep state_type s) ([], 0, 0)
  let conf :=
    if acc.2.2 > 0 then
      normalize_confidence (if acc.2.2 > 0 then acc.2.1 / acc.2.2 else 0) 0 1
    else 0
  { state_type := state_type
    score := acc.2.1
    confidence := conf
    factors := acc.1
    explanation := explanationOf state_type acc.1 }

/-- The ten candidate state types, in `IntentStateType` declaration order
(`src/istari/core/intent_state.py`). -/
def possibleStates : List String :=
  ["browsing", "evaluating_options", "price_sensitive", "trust_seeking", "purchase_ready",
   "abandonment_risk", "exploring", "comparing", "hesitating", "ready_to_act"]

/-- Python's `max(scores, key=lambda s: s.confidence)` starting from a first
candidate: a later element replaces the current best only when strictly
greater, so ties keep the earliest element. -/
def maxByConf (h : Score) (t : List Score) : Score :=
  t.foldl (fun b x => if x.confidence > b.confidence then x else b) h

/-- Python `max` over the candidate score list.  The empty case is unreachable (the
candidate list has ten entries) and returns a dummy. -/
def pickBest : List Score → Score
  | [] => ⟨"", 0, 0, [], []⟩
  | h :: t => maxByConf h t

/-- The timestamp given to the inferred state: last event's timestamp, or the
session start when the timeline is empty. -/
def inferTime (s : Session) : ℚ :=
  match s.timeline.events.getLast? with
  | some e => e.timestamp
  | none => s.started_at

/-- Python `explanation.split(". ")` on a two-character separator, over lists of
characters.  Scans left to right, splitting at each non-overlapping occurrence
of the separator. -/
def split2 (a b : Char) : List Char → List (List Char)
  | [] => [[]]
  | [c] => [[c]]
  | c :: d :: rest =>
    if c = a ∧ d = b then [] :: split2 a b rest
    else
      match split2 a b (d :: rest) with
      | [] => [[c]]
      | h :: t => (c :: h) :: t

/-- Python `RuleBasedInference.infer` (`src/istari/inference/rules.py`): score all ten
candidate states, take the maximum-confidence score (first on ties), and build
the resulting `IntentState`.  The constructor's confidence validation provably
passes (`infer_confidence_mem`). -/
def RuleBasedInference.infer (rules : List HeuristicRule) (s : Session) : IntentState :=
  let scores := possibleStates.map (fun st => RuleScorer.score st s rules)
  let best := pickBest scores
  { state_type := best.state_type
    timestamp := inferTime s
    confidence := best.confidence
    attributions := best.factors
    evidence := if best.explanation.isEmpty then [] else split2 '.' ' ' best.explanation }

/-- Python `ConfidenceCalculator._calculate_evidence_factor`
(`src/istari/inference/confidence.py`); the session argument is accepted and
ignored, as in the source. -/
def ConfidenceCalculator.calculate_evidence_factor (state : IntentState) (_s : Session) : ℚ :=
  if state.evidence = [] then 0.7
  else
    let evidence_count := state.evidence.length
    if evidence_count ≥ 3 then 1.0
    else if evidence_count ≥ 2 then 0.9
    else if evidence_count ≥ 1 then 0.8
    else 0.7

/-- Python `ConfidenceCalculator._calculate_attribution_factor`. -/
def ConfidenceCalculator.calculate_attribution_factor (state : IntentState) : ℚ :=
  if state.attributions = [] then 0.8
  else
    match state.attributions.map (fun p => p.2) with
    | [] => 0.8
    | v :: vs =>
      let max_attr := vs.foldl max v
      let total_attr := (v :: vs).sum
      if total_attr = 0 then 0.8
      else 0.7 + (max_attr / total_attr) * 0.3

/-- Python `ConfidenceCalculator.calculate`: product of the base confidence and the
two factors, clamped into `[0, 1]`. -/
def ConfidenceCalculator.calculate (state : IntentState) (s : Session) : ℚ :=
  let base_confidence := state.confidence
  let evidence_factor := ConfidenceCalculator.calculate_evidence_factor state s
  let attribution_factor := ConfidenceCalculator.calculate_attribution_factor state
  min 1 (max 0 (base_confidence * evidence_factor * attribution_factor))

/-- Python `IntentStateMachine` (`src/istari/inference/state_machine.py`): the
inference engine's rules and the optional transition-adjacency map
(`from_state -> allowed to_states`, absent entries modelled as `none`). -/
structure IntentStateMachine where
  rules : List HeuristicRule
  transition_rules : String → Option (List String)

/-- Python `IntentStateMachine._is_valid_transition`. -/
def IntentStateMachine.is_valid_transition (m : IntentStateMachine) (f t : String) : Bool :=
  if f = t then true
  else
    match m.transition_rules f with
    | none => true
    | some allowed => allowed.contains t

/-- The significant event types of `_get_significant_events`. -/
def significantTypes : List String :=
  ["page_view", "add_to_cart", "remove_from_cart", "checkout_started", "checkout_completed", "purchase"]

/-- Python `IntentStateMachine._get_significant_events`. -/
def significantEvents (events : List Event) : List Event :=
  events.filter (fun e => significantTypes.contains e.event_type)

/-- The temporary prefix session built inside `infer_trajectory`'s loop: a
fresh session with the same ids, fed every original event with timestamp at or
before the significant event's, through `add_events` (whose id validation can
raise). -/
def prefixSession (s : Session) (events : List Event) (e : Event) : Session × Option Err :=
  Session.add_events ⟨s.session_id, s.user_id, s.started_at, Timeline.empty⟩
    (events.filter (fun x => x.timestamp ≤ e.timestamp))

/-- One iteration of the event loop of `IntentStateMachine.infer_trajectory`,
on the accumulated `(trajectory, held state)` pair: rebuild the prefix session
(whose id validation can raise), infer a state over it, discard it when the
type is unchanged, gate a type change through `_is_valid_transition`, and on
rejection rebuild a refreshed `IntentState` under the old label (running the
constructor's validation) only to discard it, leaving trajectory and held state
untouched. -/
def trajStep (m : IntentStateMachine) (s : Session) (events : List Event) (e : Event)
    (acc : List IntentState × Option IntentState) :
    Except Err (List IntentState × Option IntentState) :=
  match (prefixSession s events e).2 with
  | some er => .error er
  | none =>
    let n := RuleBasedInference.infer m.rules (prefixSession s events e).1
    match acc.2 with
    | none => .ok (acc.1 ++ [n], some n)
    | some c =>
      if n.state_type = c.state_type then .ok (acc.1, some c)
      else if m.is_valid_transition c.state_type n.state_type then .ok (acc.1 ++ [n], some n)
      else
        match IntentState.mk? c.state_type n.timestamp n.confidence n.attributions n.evidence with
        | none => .error (.valueError "confidence must be between 0.0 and 1.0")
        | some _ => .ok (acc.1, some c)

/-- The event loop of `IntentStateMachine.infer_trajectory`: run `trajStep` on
each significant event in order, propagating a raised error. -/
def trajLoop (m : IntentStateMachine) (s : Session) (events : List Event) :
    List Event → List IntentState → Option IntentState → Except Err (List IntentState)
  | [], traj, _ => .ok traj
  | e :: rest, traj, cur =>
    match trajStep m s events e (traj, cur) with
    | .error er => .error er
    | .ok (traj2, cur2) => trajLoop m s events rest traj2 cur2

/-- Python `IntentStateMachine.infer_trajectory`: empty timeline yields an empty
trajectory; otherwise replay the significant events through `trajLoop`. -/
def IntentStateMachine.infer_trajectory (m : IntentStateMachine) (s : Session) :
    Except Err (List IntentState) :=
  let events := s.timeline.events
  if events.isEmpty then .ok []
  else trajLoop m s events (significantEvents events) [] none

/-- Modelled from the spec's words for the C5 refinement: "the trajectory
contains exactly one entry per distinct state-type change among significant
events" — keep the first inferred state, then each inferred state whose type
differs from the previously kept one. -/
def changeCompress (cur : Option String) : List IntentState → List IntentState
  | [] => []
  | n :: rest =>
    match cur with
    | none => n :: changeCompress (some n.state_type) rest
    | some t =>
      if n.state_type = t then changeCompress (some t) rest
      else n :: changeCompress (some n.state_type) rest

/-- The sequence of states `infer_trajectory` infers, one per significant event
(each over the prefix of events up to it). -/
def inferredStates (rules : List HeuristicRule) (s : Session) : List IntentState :=
  (significantEvents s.timeline.events).map
    (fun e => RuleBasedInference.infer rules (prefixSession s s.timeline.events e).1)

/-- Modelled from the spec's words: the trajectory the spec promises when no
adjacency map is registered. -/
def specTrajectory (rules : List HeuristicRule) (s : Session) : List IntentState :=
  changeCompress none (inferredStates rules s)

/-! Concrete inputs for the scenario claim and the witnesses. -/

/-- Scenario event `page_view(t0)` with `t0 = 0`. -/
def c4e1 : Event := ⟨"page_view", 0, "u1", "s1", []⟩

/-- Scenario event `page_view(t0+20s)`. -/
def c4e2 : Event := ⟨"page_view", 20, "u1", "s1", []⟩

/-- Scenario event `product_view(t0+45s, price=999.99)`. -/
def c4e3 : Event := ⟨"product_view", 45, "u1", "s1", [("price", 999.99)]⟩

/-- Scenario event `product_view(t0+90s, price=1299.99)`. -/
def c4e4 : Event := ⟨"product_view", 90, "u1", "s1", [("price", 1299.99)]⟩

/-- Scenario event `add_to_cart(t0+180s, price=999.99)`. -/
def c4e5 : Event := ⟨"add_to_cart", 180, "u1", "s1", [("price", 999.99)]⟩

/-- Scenario event `checkout_started(t0+240s)`. -/
def c4e6 : Event := ⟨"checkout_started", 240, "u1", "s1", []⟩

/-- The scenario session of §8 of the spec. -/
def c4session : Session :=
  ⟨"s1", "u1", 0, Timeline.init [c4e1, c4e2, c4e3, c4e4, c4e5, c4e6]⟩

/-- The scenario rule set {Browsing, PurchaseReady, AbandonmentRisk}. -/
def c4rules : List HeuristicRule := [BrowsingRule, PurchaseReadyRule, AbandonmentRiskRule]

/-- An empty session used as a concrete witness input. -/
def w9session : Session := ⟨"s1", "u1", 0, Timeline.empty⟩

/-- A witness event whose ids match `w9session`. -/
def w9good : Event := ⟨"page_view", 1, "u1", "s1", []⟩

/-- A witness event whose user id does not match `w9session`. -/
def w9bad : Event := ⟨"page_view", 2, "uX", "s1", []⟩

/-- A witness event matching ids `u1`/`s1`. -/
def w1e : Event := ⟨"page_view", 5, "u1", "s1", []⟩

/-- A one-event witness session. -/
def w1s : Session := ⟨"s1", "u1", 0, Timeline.init [w1e]⟩

/-- A witness machine with no rules and an adjacency entry for
`purchase_ready` that allows only `hesitating`. -/
def w1m : IntentStateMachine :=
  ⟨[], fun st => if st = "purchase_ready" then some ["hesitating"] else none⟩

/-- A witness held state labelled `purchase_ready`. -/
def w1c : IntentState := ⟨"purchase_ready", 0, 1, [], []⟩

/-! ## Sorting helpers -/

theorem sortByTs_sorted (l : List Event) : tsSorted (sortByTs l) := by
  haveI : IsTotal Event tsLE := ⟨fun a b => le_total a.timestamp b.timestamp⟩
  haveI : IsTrans Event tsLE := ⟨fun _ _ _ hab hbc => le_trans hab hbc⟩
  exact List.sorted_insertionSort tsLE l

theorem sortByTs_perm (l : List Event) : (sortByTs l).Perm l :=
  List.perm_insertionSort tsLE l

theorem applyOp_sorted (t : Timeline) (op : TimelineOp) : tsSorted (applyOp t op).events := by
  cases op with
  | one e => exact sortByTs_sorted _
  | many es => exact sortByTs_sorted _

theorem applyOps_sorted (ops : List TimelineOp) (t : Timeline) (ht : tsSorted t.events) :
    tsSorted (applyOps t ops).events := by
  induction ops generalizing t with
  | nil => exact ht
  | cons op ops ih => exact ih (applyOp t op) (applyOp_sorted t op)

/-- C8: starting from any `Timeline(initial)` and running any sequence of
`add_event`/`add_events` calls with arbitrary events in arbitrary order, the
internal event list is sorted ascending by timestamp, so `get_events` always
returns a timestamp-sorted list. -/
theorem C8_timeline_always_sorted (initial : List Event) (ops : List TimelineOp) :
    tsSorted (applyOps (Timeline.init initial) ops).events :=
  applyOps_sorted ops (Timeline.init initial) (sortByTs_sorted _)

/-! ## Session append helpers -/

theorem add_event_ok (s : Session) (e : Event) (h : eventMatches s e) :
    s.add_event e = .ok { s with timeline := s.timeline.add_event e } := by
  simp [Session.add_event, h.1, h.2]

theorem add_event_err (s : Session) (e : Event) (h : ¬ eventMatches s e) :
    ∃ m, s.add_event e = .error (.sessionError m) := by
  rw [eventMatches, not_and_or] at h
  rcases h with h | h
  · exact ⟨"Event session_id " ++ e.session_id ++ " doesn't match session " ++ s.session_id,
      by simp [Session.add_event, h]⟩
  · by_cases hs : e.session_id = s.session_id
    · exact ⟨"Event user_id " ++ e.user_id ++ " doesn't match session user " ++ s.user_id,
        by simp [Session.add_event, hs, h]⟩
    · exact ⟨"Event session_id " ++ e.session_id ++ " doesn't match session " ++ s.session_id,
        by simp [Session.add_event, hs]⟩

theorem add_events_stops (good : List Event) (s : Session) (bad : Event) (rest : List Event)
    (hgood : ∀ e ∈ good, eventMatches s e) (hbad : ¬ eventMatches s bad) :
    (∃ m, (s.add_events (good ++ bad :: rest)).2 = some (.sessionError m)) ∧
      ((s.add_events (good ++ bad :: rest)).1.timeline.events).Perm
        (s.timeline.events ++ good) := by
  induction good generalizing s with
  | nil =>
    obtain ⟨m, hm⟩ := add_event_err s bad hbad
    refine ⟨⟨m, ?_⟩, ?_⟩
    · simp [Session.add_events, hm]
    · simp [Session.add_events, hm]
  | cons g good ih =>
    have hg := hgood g (by simp)
    have hrest : ∀ e ∈ good, eventMatches ({ s with timeline := s.timeline.add_event g } : Session) e := by
      intro e he
      exact hgood e (by simp [he])
    have hbad2 : ¬ eventMatches ({ s with timeline := s.timeline.add_event g } : Session) bad := hbad
    obtain ⟨⟨m, hm⟩, hperm⟩ := ih { s with timeline := s.timeline.add_event g } hrest hbad2
    have hstep : s.add_events ((g :: good) ++ bad :: rest) =
        Session.add_events { s with timeline := s.timeline.add_event g } (good ++ bad :: rest) := by
      simp [Session.add_events, add_event_ok s g hg]
    refine ⟨⟨m, by rw [hstep]; exact hm⟩, ?_⟩
    rw [hstep]
    refine hperm.trans ?_
    have h1 : (s.timeline.add_event g).events.Perm (s.timeline.events ++ [g]) :=
      sortByTs_perm _
    refine (h1.append_right good).trans ?_
    simp

/-- C9: `Session.add_events` is not atomic.  For every session and every event
list decomposed as `good ++ bad :: rest` where all events of `good` (the first
`k > 0` events) match the session's ids and `bad` (position `k`) does not, the
call raises a `SessionError` and the session keeps the `good` events in its
timeline: the state is not rolled back. -/
theorem C9_add_events_not_atomic (s : Session) (good : List Event) (bad : Event)
    (rest : List Event) (hk : 0 < good.length)
    (hgood : ∀ e ∈ good, eventMatches s e) (hbad : ¬ eventMatches s bad) :
    (∃ m, (s.add_events (good ++ bad :: rest)).2 = some (.sessionError m)) ∧
      ((s.add_events (good ++ bad :: rest)).1.timeline.events).Perm
        (s.timeline.events ++ good) :=
  add_events_stops good s bad rest hgood hbad

/-- Witness for C9 at a concrete session and event list. -/
theorem C9_witness :
    (0 < [w9good].length) ∧
      ((∃ m, (w9session.add_events ([w9good] ++ w9bad :: [])).2 = some (.sessionError m)) ∧
        ((w9session.add_events ([w9good] ++ w9bad :: [])).1.timeline.events).Perm
          (w9session.timeline.events ++ [w9good])) :=
  ⟨by decide,
   C9_add_events_not_atomic w9session [w9good] w9bad [] (by decide)
     (by decide) (by decide)⟩

/-! ## Confidence range helpers -/

theorem normalize_confidence_mem (raw mn mx : ℚ) :
    0 ≤ normalize_confidence raw mn mx ∧ normalize_confidence raw mn mx ≤ 1 := by
  unfold normalize_confidence
  split
  · norm_num
  · constructor
    · exact le_max_left 0 _
    · exact max_le (by norm_num) (min_le_left 1 _)

theorem score_confidence_mem (st : String) (s : Session) (rules : List HeuristicRule) :
    0 ≤ (RuleScorer.score st s rules).confidence ∧
      (RuleScorer.score st s rules).confidence ≤ 1 := by
  rw [RuleScorer.score]
  dsimp only
  split
  · exact normalize_confidence_mem _ 0 1
  · norm_num

/-- C3: every confidence value produced or accepted by any component lies in
`[0, 1]`: the `IntentState`, `Score` and `Transition` constructors accept a
confidence exactly when it is in range (rejecting out-of-range values), every
`RuleScorer.score` output confidence is in range, and every
`ConfidenceCalculator.calculate` output is clamped into range. -/
theorem C3_confidence_in_unit_interval :
    (∀ (st : String) (ts c : ℚ) (att : List (String × ℚ)) (ev : List (List Char)),
        (IntentState.mk? st ts c att ev).isSome ↔ (0 ≤ c ∧ c ≤ 1)) ∧
    (∀ (st : String) (sc c : ℚ) (fs : List (String × ℚ)) (ex : List Char),
        (Score.mk? st sc c fs ex).isSome ↔ (0 ≤ c ∧ c ≤ 1)) ∧
    (∀ (f t : IntentState) (ts : ℚ) (tt : String) (c : ℚ),
        (Transition.mk? f t ts tt c).isSome ↔
          (f.timestamp ≤ t.timestamp ∧ (0 ≤ c ∧ c ≤ 1))) ∧
    (∀ (st : String) (s : Session) (rules : List HeuristicRule),
        0 ≤ (RuleScorer.score st s rules).confidence ∧
          (RuleScorer.score st s rules).confidence ≤ 1) ∧
    (∀ (state : IntentState) (s : Session),
        0 ≤ ConfidenceCalculator.calculate state s ∧
          ConfidenceCalculator.calculate state s ≤ 1) := by
  refine ⟨?_, ?_, ?_, ?_, ?_⟩
  · intro st ts c att ev
    rw [IntentState.mk?]
    split <;> simp_all
  · intro st sc c fs ex
    rw [Score.mk?]
    split <;> simp_all
  · intro f t ts tt c
    rw [Transition.mk?]
    split
    · split <;> simp_all
    · simp_all
  · exact score_confidence_mem
  · intro state s
    rw [ConfidenceCalculator.calculate]
    exact ⟨le_min (by norm_num) (le_max_left 0 _),
      min_le_left 1 _⟩

/-- Counterexample for C7 as stated: `normalize_confidence` is quantified over
all fixed bounds, but with the reversed bounds `min_score = 1`, `max_score = 0`
it is strictly decreasing: the raw scores `0 ≤ 1` map to `1 > 0`. -/
theorem C7_counterexample :
    (0 : ℚ) ≤ 1 ∧
      ¬ (normalize_confidence 0 1 0 ≤ normalize_confidence 1 1 0) := by
  norm_num [normalize_confidence]

/-- C7 (amended): for fixed bounds with `min_score ≤ max_score`,
`Scorer.normalize_confidence` is monotonic non-decreasing in its raw-score
argument; when `min_score < max_score` it returns 0 at `raw = min_score` and 1
at `raw = max_score`; and it returns 0.5 whenever the two bounds coincide. -/
theorem C7_normalize_monotone_and_endpoints (mn mx r1 r2 : ℚ)
    (hb : mn ≤ mx) (hr : r1 ≤ r2) :
    normalize_confidence r1 mn mx ≤ normalize_confidence r2 mn mx ∧
      (mn < mx → normalize_confidence mn mn mx = 0 ∧ normalize_confidence mx mn mx = 1) ∧
      normalize_confidence r1 mn mn = 0.5 := by
  refine ⟨?_, fun hlt => ⟨?_, ?_⟩, by simp [normalize_confidence]⟩
  · unfold normalize_confidence
    by_cases he : mx = mn
    · simp [he]
    · rw [if_neg he, if_neg he]
      have hd : 0 < mx - mn := by
        rcases lt_or_eq_of_le hb with h | h
        · linarith
        · exact absurd h.symm he
      refine max_le_max (le_refl 0) (min_le_min (le_refl 1) ?_)
      rw [div_le_div_iff₀ hd hd]
      exact mul_le_mul_of_nonneg_right (by linarith) (le_of_lt hd)
  · have hd : mx - mn ≠ 0 := sub_ne_zero.mpr (ne_of_gt hlt)
    rw [normalize_confidence, if_neg (fun h => hd (by rw [h]; ring))]
    norm_num
  · have hd : mx - mn ≠ 0 := sub_ne_zero.mpr (ne_of_gt hlt)
    rw [normalize_confidence, if_neg (fun h => hd (by rw [h]; ring)), div_self hd]
    norm_num

/-! ## Scorer characterization -/

theorem foldl_scoreStep_snd (st : String) (s : Session) (l : List HeuristicRule)
    (fs : List (String × ℚ)) (a b : ℚ) :
    (l.foldl (scoreStep st s) (fs, a, b)).2 =
      (a + ((l.filter (fun r => r.matchesFn st s)).map (fun r => r.evaluate s * r.get_weight)).sum,
       b + ((l.filter (fun r => r.matchesFn st s)).map (fun r => r.get_weight)).sum) := by
  induction l generalizing fs a b with
  | nil => simp
  | cons r l ih =>
    cases hm : r.matchesFn st s with
    | false => simp [scoreStep, hm, ih, List.filter_cons]
    | true => simp [scoreStep, hm, ih, List.filter_cons, add_assoc]

theorem score_state_type (st : String) (s : Session) (rules : List HeuristicRule) :
    (RuleScorer.score st s rules).state_type = st := rfl

theorem score_confidence_perm (st : String) (s : Session) {r1 r2 : List HeuristicRule}
    (hp : r1.Perm r2) :
    (RuleScorer.score st s r1).confidence = (RuleScorer.score st s r2).confidence := by
  have hf := hp.filter (fun r => r.matchesFn st s)
  have hsum1 := (hf.map (fun r => r.evaluate s * r.get_weight)).sum_eq
  have hsum2 := (hf.map (fun r => r.get_weight)).sum_eq
  simp only [RuleScorer.score]
  rw [foldl_scoreStep_snd, foldl_scoreStep_snd, hsum1, hsum2]

theorem maxByConf_mem (h : Score) (t : List Score) : maxByConf h t ∈ h :: t := by
  induction t generalizing h with
  | nil => simp [maxByConf]
  | cons x t ih =>
    have hstep : maxByConf h (x :: t) = maxByConf (if x.confidence > h.confidence then x else h) t := rfl
    rw [hstep]
    rcases List.mem_cons.mp (ih (if x.confidence > h.confidence then x else h)) with h1 | h1
    · rw [h1]
      split <;> simp
    · simp [List.mem_cons, h1]

theorem maxByConf_congr (t1 t2 : List Score)
    (hf : List.Forall₂ (fun a b => a.state_type = b.state_type ∧ a.confidence = b.confidence) t1 t2) :
    ∀ (h1 h2 : Score), h1.state_type = h2.state_type → h1.confidence = h2.confidence →
      (maxByConf h1 t1).state_type = (maxByConf h2 t2).state_type ∧
        (maxByConf h1 t1).confidence = (maxByConf h2 t2).confidence := by
  induction hf with
  | nil => exact fun h1 h2 hst hc => ⟨hst, hc⟩
  | @cons x y l1 l2 hxy hrest ih =>
    intro h1 h2 hst hc
    have hs1 : maxByConf h1 (x :: l1) = maxByConf (if x.confidence > h1.confidence then x else h1) l1 := rfl
    have hs2 : maxByConf h2 (y :: l2) = maxByConf (if y.confidence > h2.confidence then y else h2) l2 := rfl
    rw [hs1, hs2]
    by_cases hgt : x.confidence > h1.confidence
    · have hgt2 : y.confidence > h2.confidence := by rw [← hxy.2, ← hc]; exact hgt
      rw [if_pos hgt, if_pos hgt2]
      exact ih x y hxy.1 hxy.2
    · have hgt2 : ¬ y.confidence > h2.confidence := by rw [← hxy.2, ← hc]; exact hgt
      rw [if_neg hgt, if_neg hgt2]
      exact ih h1 h2 hst hc

theorem forall2_score_map (l : List String) (f g : String → Score)
    (h : ∀ x ∈ l, (f x).state_type = (g x).state_type ∧ (f x).confidence = (g x).confidence) :
    List.Forall₂ (fun a b => a.state_type = b.state_type ∧ a.confidence = b.confidence)
      (l.map f) (l.map g) := by
  induction l with
  | nil => exact List.Forall₂.nil
  | cons x l ih => exact List.Forall₂.cons (h x (by simp)) (ih (fun y hy => h y (by simp [hy])))

theorem pickBest_congr (t1 t2 : List Score)
    (hf : List.Forall₂ (fun a b => a.state_type = b.state_type ∧ a.confidence = b.confidence) t1 t2) :
    (pickBest t1).state_type = (pickBest t2).state_type ∧
      (pickBest t1).confidence = (pickBest t2).confidence := by
  cases hf with
  | nil => exact ⟨rfl, rfl⟩
  | cons hxy hrest => exact maxByConf_congr _ _ hrest _ _ hxy.1 hxy.2

/-- C6: registration order never changes scores.  For every session, rule set
and permutation of it, `RuleScorer.score` computes the same confidence for each
candidate state type, and `RuleBasedInference.infer` selects the same
state type with the same confidence. -/
theorem C6_rule_order_invariant (r1 r2 : List HeuristicRule) (hp : r1.Perm r2) :
    (∀ (st : String) (s : Session),
        (RuleScorer.score st s r1).confidence = (RuleScorer.score st s r2).confidence) ∧
    (∀ s : Session,
        (RuleBasedInference.infer r1 s).state_type = (RuleBasedInference.infer r2 s).state_type ∧
        (RuleBasedInference.infer r1 s).confidence = (RuleBasedInference.infer r2 s).confidence) := by
  refine ⟨fun st s => score_confidence_perm st s hp, fun s => ?_⟩
  have hmap := forall2_score_map possibleStates
    (fun st => RuleScorer.score st s r1) (fun st => RuleScorer.score st s r2)
    (fun st _ => ⟨by rw [score_state_type, score_state_type], score_confidence_perm st s hp⟩)
  exact pickBest_congr _ _ hmap

/-- Witness for C6: swapping two concrete rules leaves the score of a concrete
candidate on a concrete session unchanged. -/
theorem C6_witness :
    (RuleScorer.score "browsing" w9session [BrowsingRule, PurchaseReadyRule]).confidence =
      (RuleScorer.score "browsing" w9session [PurchaseReadyRule, BrowsingRule]).confidence :=
  (C6_rule_order_invariant [BrowsingRule, PurchaseReadyRule] [PurchaseReadyRule, BrowsingRule]
    (List.Perm.swap PurchaseReadyRule BrowsingRule [])).1 "browsing" w9session

/-! ## Inference with no rules -/

theorem infer_eq (rules : List HeuristicRule) (s : Session) :
    RuleBasedInference.infer rules s =
      { state_type := (pickBest (possibleStates.map fun st => RuleScorer.score st s rules)).state_type
        timestamp := inferTime s
        confidence := (pickBest (possibleStates.map fun st => RuleScorer.score st s rules)).confidence
        attributions := (pickBest (possibleStates.map fun st => RuleScorer.score st s rules)).factors
        evidence :=
          if (pickBest (possibleStates.map fun st => RuleScorer.score st s rules)).explanation.isEmpty
          then []
          else split2 '.' ' '
            (pickBest (possibleStates.map fun st => RuleScorer.score st s rules)).explanation } := rfl

theorem score_nil_confidence (st : String) (s : Session) :
    (RuleScorer.score st s []).confidence = 0 := by
  simp only [RuleScorer.score, List.foldl_nil]
  norm_num

theorem maxByConf_const (c : ℚ) (h : Score) (t : List Score) (hh : h.confidence = c)
    (ht : ∀ x ∈ t, x.confidence = c) : maxByConf h t = h := by
  induction t generalizing h with
  | nil => rfl
  | cons x t ih =>
    have hx : x.confidence = c := ht x (by simp)
    have hcond : ¬ (x.confidence > h.confidence) := by rw [hx, hh]; exact lt_irrefl c
    have hstep : maxByConf h (x :: t) = maxByConf (if x.confidence > h.confidence then x else h) t := rfl
    rw [hstep, if_neg hcond]
    exact ih h hh (fun y hy => ht y (by simp [hy]))

theorem infer_nil (s : Session) :
    (RuleBasedInference.infer [] s).state_type = "browsing" ∧
      (RuleBasedInference.infer [] s).confidence = 0 := by
  have hbest : pickBest (possibleStates.map fun st => RuleScorer.score st s []) =
      RuleScorer.score "browsing" s [] := by
    refine maxByConf_const 0 _ _ (score_nil_confidence "browsing" s) ?_
    intro x hx
    obtain ⟨st, _, hst⟩ := List.mem_map.mp hx
    rw [← hst]
    exact score_nil_confidence st s
  rw [infer_eq, hbest]
  exact ⟨rfl, score_nil_confidence "browsing" s⟩

/-- Witness for the amended C7 at concrete bounds and raw scores. -/
theorem C7_witness :
    normalize_confidence 0 0 1 ≤ normalize_confidence 1 0 1 ∧
      ((0 : ℚ) < 1 → normalize_confidence 0 0 1 = 0 ∧ normalize_confidence 1 0 1 = 1) ∧
      normalize_confidence 0 0 0 = 0.5 :=
  C7_normalize_monotone_and_endpoints 0 1 0 1 (by norm_num) (by norm_num)

/-- C2: with zero rules registered, inference assigns confidence 0 to every one
of the ten candidate state types and returns an `IntentState` whose state type
is the first-enumerated candidate `"browsing"`; the constructor's confidence
validation accepts the result, so no error is raised. -/
theorem C2_no_rules_zero_confidence (s : Session) :
    possibleStates.length = 10 ∧
    (∀ st : String, (RuleScorer.score st s []).confidence = 0) ∧
    (RuleBasedInference.infer [] s).state_type = "browsing" ∧
    (RuleBasedInference.infer [] s).confidence = 0 ∧
    (IntentState.mk? (RuleBasedInference.infer [] s).state_type
      (RuleBasedInference.infer [] s).timestamp (RuleBasedInference.infer [] s).confidence
      (RuleBasedInference.infer [] s).attributions
      (RuleBasedInference.infer [] s).evidence).isSome := by
  refine ⟨rfl, fun st => score_nil_confidence st s, (infer_nil s).1, (infer_nil s).2, ?_⟩
  rw [IntentState.mk?, if_pos]
  · rfl
  · rw [(infer_nil s).2]
    norm_num

/-! ## Evidence is never empty -/

theorem split2_ne_nil (a b : Char) (l : List Char) : split2 a b l ≠ [] := by
  match l with
  | [] => simp [split2]
  | [c] => simp [split2]
  | c :: d :: rest =>
    rw [split2]
    split
    · simp
    · cases hsp : split2 a b (d :: rest) with
      | nil => simp [hsp]
      | cons h t => simp [hsp]

theorem explanationOf_ne_nil (st : String) (fs : List (String × ℚ)) :
    explanationOf st fs ≠ [] := by
  intro h
  rw [explanationOf] at h
  have h1 := (List.append_eq_nil.mp ((List.append_eq_nil.mp ((List.append_eq_nil.mp h).1)).1)).1
  exact absurd h1 (by decide)

theorem infer_evidence_ne_nil (rules : List HeuristicRule) (s : Session) :
    (RuleBasedInference.infer rules s).evidence ≠ [] := by
  have hmem : pickBest (possibleStates.map fun st => RuleScorer.score st s rules) ∈
      possibleStates.map fun st => RuleScorer.score st s rules := maxByConf_mem _ _
  obtain ⟨st, _, hst⟩ := List.mem_map.mp hmem
  have hev : (RuleBasedInference.infer rules s).evidence =
      (if (RuleScorer.score st s rules).explanation.isEmpty then []
       else split2 '.' ' ' (RuleScorer.score st s rules).explanation) := by
    rw [infer_eq, ← hst]
  rw [hev]
  have hne : (RuleScorer.score st s rules).explanation ≠ [] := explanationOf_ne_nil st _
  rcases hbe : (RuleScorer.score st s rules).explanation with _ | ⟨ch, chs⟩
  · exact absurd hbe hne
  · simp only [List.isEmpty_cons, Bool.false_eq_true, if_false]
    exact split2_ne_nil '.' ' ' (ch :: chs)

/-- C10: for every session and every rule set (including the empty set), the
`IntentState` returned by `RuleBasedInference.infer` has a non-empty evidence
list (the generated explanation string is always non-empty), so
`ConfidenceCalculator._calculate_evidence_factor` never returns the no-evidence
factor 0.7 for a state produced by `infer`. -/
theorem C10_infer_evidence_nonempty (rules : List HeuristicRule) (s s2 : Session) :
    (RuleBasedInference.infer rules s).evidence ≠ [] ∧
      ConfidenceCalculator.calculate_evidence_factor (RuleBasedInference.infer rules s) s2 ≠ 0.7 := by
  refine ⟨infer_evidence_ne_nil rules s, ?_⟩
  have h := infer_evidence_ne_nil rules s
  have hlen : 1 ≤ (RuleBasedInference.infer rules s).evidence.length := by
    rcases hbe : (RuleBasedInference.infer rules s).evidence with _ | ⟨x, xs⟩
    · exact absurd hbe h
    · simp
  rw [ConfidenceCalculator.calculate_evidence_factor, if_neg h]
  dsimp only
  by_cases h3 : (RuleBasedInference.infer rules s).evidence.length ≥ 3
  · rw [if_pos h3]; norm_num
  · rw [if_neg h3]
    by_cases h2 : (RuleBasedInference.infer rules s).evidence.length ≥ 2
    · rw [if_pos h2]; norm_num
    · rw [if_neg h2, if_pos hlen]; norm_num

/-! ## The §8 scenario -/

theorem c4_events : c4session.timeline.events = [c4e1, c4e2, c4e3, c4e4, c4e5, c4e6] := by
  norm_num [c4session, Timeline.init, Timeline.empty, Timeline.add_events, sortByTs,
    List.insertionSort, List.orderedInsert, tsLE, c4e1, c4e2, c4e3, c4e4, c4e5, c4e6]

theorem c4_eval_browsing : BrowsingRule.evaluate c4session = 0.5 := by
  simp [BrowsingRule, c4_events, c4e1, c4e2, c4e3, c4e4, c4e5, c4e6]

theorem c4_eval_purchase : PurchaseReadyRule.evaluate c4session = 0.9 := by
  simp [PurchaseReadyRule, c4_events, c4e1, c4e2, c4e3, c4e4, c4e5, c4e6]

theorem c4_gaps : c4session.timeline.get_time_gaps = [20, 25, 45, 90, 60] := by
  rw [Timeline.get_time_gaps, c4_events]
  norm_num [c4e1, c4e2, c4e3, c4e4, c4e5, c4e6]

theorem c4_eval_abandonment : AbandonmentRiskRule.evaluate c4session = 0.2 := by
  simp [AbandonmentRiskRule, c4_events, c4e1, c4e2, c4e3, c4e4, c4e5, c4e6, c4_gaps]
  norm_num

theorem c4_conf_browsing : (RuleScorer.score "browsing" c4session c4rules).confidence = 0.5 := by
  have hmB : BrowsingRule.matchesFn "browsing" c4session = true := by decide
  have hmP : PurchaseReadyRule.matchesFn "browsing" c4session = false := by decide
  have hmA : AbandonmentRiskRule.matchesFn "browsing" c4session = false := by decide
  have hwB : BrowsingRule.get_weight = 1 := by norm_num [HeuristicRule.get_weight, BrowsingRule]
  simp only [RuleScorer.score, c4rules, List.foldl_cons, List.foldl_nil, scoreStep,
    hmB, hmP, hmA, hwB, c4_eval_browsing, if_true, if_false, Bool.false_eq_true]
  norm_num [normalize_confidence]

theorem c4_conf_purchase :
    (RuleScorer.score "purchase_ready" c4session c4rules).confidence = 0.9 := by
  have hmB : BrowsingRule.matchesFn "purchase_ready" c4session = false := by decide
  have hmP : PurchaseReadyRule.matchesFn "purchase_ready" c4session = true := by decide
  have hmA : AbandonmentRiskRule.matchesFn "purchase_ready" c4session = false := by decide
  have hwP : PurchaseReadyRule.get_weight = 1.5 := by
    norm_num [HeuristicRule.get_weight, PurchaseReadyRule]
  simp only [RuleScorer.score, c4rules, List.foldl_cons, List.foldl_nil, scoreStep,
    hmB, hmP, hmA, hwP, c4_eval_purchase, if_true, if_false, Bool.false_eq_true]
  norm_num [normalize_confidence]

theorem c4_conf_abandonment :
    (RuleScorer.score "abandonment_risk" c4session c4rules).confidence = 0.2 := by
  have hmB : BrowsingRule.matchesFn "abandonment_risk" c4session = false := by decide
  have hmP : PurchaseReadyRule.matchesFn "abandonment_risk" c4session = false := by decide
  have hmA : AbandonmentRiskRule.matchesFn "abandonment_risk" c4session = true := by decide
  have hwA : AbandonmentRiskRule.get_weight = 1.2 := by
    norm_num [HeuristicRule.get_weight, AbandonmentRiskRule]
  simp only [RuleScorer.score, c4rules, List.foldl_cons, List.foldl_nil, scoreStep,
    hmB, hmP, hmA, hwA, c4_eval_abandonment, if_true, if_false, Bool.false_eq_true]
  norm_num [normalize_confidence]

theorem score_confidence_no_match (st : String) (s : Session) (rules : List HeuristicRule)
    (h : ∀ r ∈ rules, r.matchesFn st s = false) :
    (RuleScorer.score st s rules).confidence = 0 := by
  have hfil : rules.filter (fun r => r.matchesFn st s) = [] := by
    rw [List.filter_eq_nil_iff]
    intro r hr
    simp [h r hr]
  simp only [RuleScorer.score]
  rw [foldl_scoreStep_snd, hfil]
  norm_num

theorem c4_conf_other (st : String)
    (h : ∀ r ∈ c4rules, r.matchesFn st c4session = false) :
    (RuleScorer.score st c4session c4rules).confidence = 0 :=
  score_confidence_no_match st c4session c4rules h

/-- C4: on the scenario session
`[page_view(t0), page_view(t0+20s), product_view(t0+45s), product_view(t0+90s),
add_to_cart(t0+180s), checkout_started(t0+240s)]` (at `t0 = 0`) with the rule
set {Browsing, PurchaseReady, AbandonmentRisk}, `PurchaseReadyRule.evaluate`
returns exactly 0.9 and `RuleBasedInference.infer` returns an `IntentState`
with state type `"purchase_ready"`. -/
theorem C4_scenario_purchase_ready :
    PurchaseReadyRule.evaluate c4session = 0.9 ∧
      (RuleBasedInference.infer c4rules c4session).state_type = "purchase_ready" := by
  refine ⟨c4_eval_purchase, ?_⟩
  have h2 := c4_conf_other "evaluating_options" (by decide)
  have h3 := c4_conf_other "price_sensitive" (by decide)
  have h4 := c4_conf_other "trust_seeking" (by decide)
  have h7 := c4_conf_other "exploring" (by decide)
  have h8 := c4_conf_other "comparing" (by decide)
  have h9 := c4_conf_other "hesitating" (by decide)
  have h10 := c4_conf_other "ready_to_act" (by decide)
  rw [infer_eq]
  simp only [possibleStates, List.map_cons, List.map_nil, pickBest]
  norm_num [maxByConf, List.foldl_cons, List.foldl_nil, c4_conf_browsing, c4_conf_purchase,
    c4_conf_abandonment, h2, h3, h4, h7, h8, h9, h10, score_state_type]

/-! ## State machine -/

theorem infer_confidence_mem (rules : List HeuristicRule) (s : Session) :
    0 ≤ (RuleBasedInference.infer rules s).confidence ∧
      (RuleBasedInference.infer rules s).confidence ≤ 1 := by
  have hmem : pickBest (possibleStates.map fun st => RuleScorer.score st s rules) ∈
      possibleStates.map fun st => RuleScorer.score st s rules := maxByConf_mem _ _
  obtain ⟨st, _, hst⟩ := List.mem_map.mp hmem
  have hc : (RuleBasedInference.infer rules s).confidence =
      (RuleScorer.score st s rules).confidence := by
    rw [infer_eq, ← hst]
  rw [hc]
  exact score_confidence_mem st s rules

theorem add_events_ok_snd (es : List Event) (s : Session)
    (h : ∀ e ∈ es, eventMatches s e) : (s.add_events es).2 = none := by
  induction es generalizing s with
  | nil => rfl
  | cons e rest ih =>
    have he := h e (by simp)
    simp only [Session.add_events, add_event_ok s e he]
    exact ih _ (fun e2 he2 => h e2 (by simp [he2]))

theorem prefixSession_ok (s : Session) (events : List Event) (e : Event)
    (hwf : ∀ x ∈ events, x.session_id = s.session_id ∧ x.user_id = s.user_id) :
    (prefixSession s events e).2 = none := by
  rw [prefixSession]
  apply add_events_ok_snd
  intro x hx
  exact hwf x (List.mem_of_mem_filter hx)

theorem trajStep_cur_none (m : IntentStateMachine) (s : Session) (events : List Event)
    (e : Event) (traj : List IntentState) (hok : (prefixSession s events e).2 = none) :
    trajStep m s events e (traj, none) =
      .ok (traj ++ [RuleBasedInference.infer m.rules (prefixSession s events e).1],
        some (RuleBasedInference.infer m.rules (prefixSession s events e).1)) := by
  rw [trajStep, hok]

theorem trajStep_same_type (m : IntentStateMachine) (s : Session) (events : List Event)
    (e : Event) (traj : List IntentState) (c : IntentState)
    (hok : (prefixSession s events e).2 = none)
    (heq : (RuleBasedInference.infer m.rules (prefixSession s events e).1).state_type =
      c.state_type) :
    trajStep m s events e (traj, some c) = .ok (traj, some c) := by
  rw [trajStep, hok]
  dsimp only
  rw [if_pos heq]

theorem trajStep_accepted (m : IntentStateMachine) (s : Session) (events : List Event)
    (e : Event) (traj : List IntentState) (c : IntentState)
    (hok : (prefixSession s events e).2 = none)
    (hne : (RuleBasedInference.infer m.rules (prefixSession s events e).1).state_type ≠
      c.state_type)
    (hv : m.is_valid_transition c.state_type
      (RuleBasedInference.infer m.rules (prefixSession s events e).1).state_type = true) :
    trajStep m s events e (traj, some c) =
      .ok (traj ++ [RuleBasedInference.infer m.rules (prefixSession s events e).1],
        some (RuleBasedInference.infer m.rules (prefixSession s events e).1)) := by
  rw [trajStep, hok]
  dsimp only
  rw [if_neg hne, if_pos hv]

/-- C1: for every state machine (any rules and any adjacency map), when the
loop of `infer_trajectory` infers a new state whose type differs from the held
one and the held type has an adjacency entry that does not list the new type,
the transition is rejected without raising any error: the step appends nothing
to the trajectory, keeps the held state, and the refreshed old-label
`IntentState` passes the constructor's validation but is discarded. -/
theorem C1_invalid_transition_rejected (m : IntentStateMachine) (s : Session)
    (events : List Event) (e : Event) (rest : List Event) (traj : List IntentState)
    (c : IntentState) (allowed : List String)
    (hok : (prefixSession s events e).2 = none)
    (hdiff : (RuleBasedInference.infer m.rules (prefixSession s events e).1).state_type ≠
      c.state_type)
    (hmap : m.transition_rules c.state_type = some allowed)
    (hnot : allowed.contains
      (RuleBasedInference.infer m.rules (prefixSession s events e).1).state_type = false) :
    trajStep m s events e (traj, some c) = .ok (traj, some c) ∧
      trajLoop m s events (e :: rest) traj (some c) = trajLoop m s events rest traj (some c) ∧
      (IntentState.mk? c.state_type
        (RuleBasedInference.infer m.rules (prefixSession s events e).1).timestamp
        (RuleBasedInference.infer m.rules (prefixSession s events e).1).confidence
        (RuleBasedInference.infer m.rules (prefixSession s events e).1).attributions
        (RuleBasedInference.infer m.rules (prefixSession s events e).1).evidence).isSome := by
  have hvalid : m.is_valid_transition c.state_type
      (RuleBasedInference.infer m.rules (prefixSession s events e).1).state_type = false := by
    rw [IntentStateMachine.is_valid_transition, if_neg (Ne.symm hdiff), hmap]
    exact hnot
  have hno : ¬ (m.is_valid_transition c.state_type
      (RuleBasedInference.infer m.rules (prefixSession s events e).1).state_type = true) := by
    rw [hvalid]
    exact Bool.false_ne_true
  have hconf := infer_confidence_mem m.rules (prefixSession s events e).1
  have hmk : (IntentState.mk? c.state_type
      (RuleBasedInference.infer m.rules (prefixSession s events e).1).timestamp
      (RuleBasedInference.infer m.rules (prefixSession s events e).1).confidence
      (RuleBasedInference.infer m.rules (prefixSession s events e).1).attributions
      (RuleBasedInference.infer m.rules (prefixSession s events e).1).evidence).isSome := by
    rw [IntentState.mk?, if_pos hconf]
    rfl
  obtain ⟨st2, hst2⟩ := Option.isSome_iff_exists.mp hmk
  have hstep : trajStep m s events e (traj, some c) = .ok (traj, some c) := by
    rw [trajStep, hok]
    dsimp only
    rw [if_neg hdiff, if_neg hno, hst2]
  refine ⟨hstep, ?_, hmk⟩
  rw [trajLoop, hstep]

/-- Witness for C1 at a concrete machine, session and held state. -/
theorem C1_witness :
    (prefixSession w1s [w1e] w1e).2 = none ∧
    (RuleBasedInference.infer w1m.rules (prefixSession w1s [w1e] w1e).1).state_type ≠
      w1c.state_type ∧
    w1m.transition_rules w1c.state_type = some ["hesitating"] ∧
    (["hesitating"].contains
      (RuleBasedInference.infer w1m.rules (prefixSession w1s [w1e] w1e).1).state_type) = false ∧
    trajStep w1m w1s [w1e] w1e ([], some w1c) = .ok ([], some w1c) := by
  have hok : (prefixSession w1s [w1e] w1e).2 = none := by decide
  have hrul : w1m.rules = [] := rfl
  have hdiff : (RuleBasedInference.infer w1m.rules (prefixSession w1s [w1e] w1e).1).state_type ≠
      w1c.state_type := by
    rw [hrul, (infer_nil _).1]
    decide
  have hmap : w1m.transition_rules w1c.state_type = some ["hesitating"] := by decide
  have hnot : (["hesitating"].contains
      (RuleBasedInference.infer w1m.rules (prefixSession w1s [w1e] w1e).1).state_type) = false := by
    rw [hrul, (infer_nil _).1]
    decide
  exact ⟨hok, hdiff, hmap, hnot,
    (C1_invalid_transition_rejected w1m w1s [w1e] w1e [] [] w1c ["hesitating"]
      hok hdiff hmap hnot).1⟩

theorem is_valid_of_no_map (m : IntentStateMachine) (hm : ∀ st, m.transition_rules st = none)
    (a b : String) : m.is_valid_transition a b = true := by
  rw [IntentStateMachine.is_valid_transition]
  split
  · rfl
  · rw [hm a]

theorem trajLoop_no_map (m : IntentStateMachine) (s : Session) (events : List Event)
    (hm : ∀ st, m.transition_rules st = none)
    (hwf : ∀ x ∈ events, x.session_id = s.session_id ∧ x.user_id = s.user_id) :
    ∀ (sig : List Event) (traj : List IntentState) (cur : Option IntentState),
      trajLoop m s events sig traj cur =
        .ok (traj ++ changeCompress (cur.map (fun c => c.state_type))
          (sig.map (fun e =>
            RuleBasedInference.infer m.rules (prefixSession s events e).1))) := by
  intro sig
  induction sig with
  | nil =>
    intro traj cur
    simp [trajLoop, changeCompress]
  | cons e rest ih =>
    intro traj cur
    have hok := prefixSession_ok s events e hwf
    cases cur with
    | none =>
      rw [trajLoop, trajStep_cur_none m s events e traj hok]
      dsimp only
      rw [ih (traj ++ [RuleBasedInference.infer m.rules (prefixSession s events e).1])
        (some (RuleBasedInference.infer m.rules (prefixSession s events e).1))]
      simp [changeCompress, List.append_assoc]
    | some c =>
      by_cases heq :
          (RuleBasedInference.infer m.rules (prefixSession s events e).1).state_type =
            c.state_type
      · rw [trajLoop, trajStep_same_type m s events e traj c hok heq]
        dsimp only
        rw [ih traj (some c)]
        simp [changeCompress, heq]
      · rw [trajLoop, trajStep_accepted m s events e traj c hok heq (is_valid_of_no_map m hm _ _)]
        dsimp only
        rw [ih (traj ++ [RuleBasedInference.infer m.rules (prefixSession s events e).1])
          (some (RuleBasedInference.infer m.rules (prefixSession s events e).1))]
        simp [changeCompress, heq, List.append_assoc]

/-- C5: with an empty transition-adjacency map, `infer_trajectory` rejects no
transition (`_is_valid_transition` is constantly true), and the trajectory
contains exactly one `IntentState` per change of inferred state type across the
ordered significant events: the first inferred state, then one entry each time
the state type inferred at a significant event differs from the previously held
one (`specTrajectory`, written from the spec). -/
theorem C5_empty_map_trajectory (m : IntentStateMachine) (s : Session)
    (hm : ∀ st, m.transition_rules st = none)
    (hwf : ∀ x ∈ s.timeline.events, x.session_id = s.session_id ∧ x.user_id = s.user_id) :
    (∀ a b, m.is_valid_transition a b = true) ∧
      m.infer_trajectory s = .ok (specTrajectory m.rules s) := by
  refine ⟨is_valid_of_no_map m hm, ?_⟩
  rw [IntentStateMachine.infer_trajectory]
  cases hemp : s.timeline.events.isEmpty with
  | true =>
    have hnil : s.timeline.events = [] := by
      cases hs : s.timeline.events with
      | nil => rfl
      | cons a l => rw [hs] at hemp; simp at hemp
    rw [if_pos rfl]
    rw [specTrajectory, inferredStates, hnil]
    simp [significantEvents, changeCompress]
  | false =>
    rw [if_neg Bool.false_ne_true]
    rw [trajLoop_no_map m s s.timeline.events hm hwf (significantEvents s.timeline.events)
      [] none]
    rw [specTrajectory, inferredStates]
    simp [changeCompress]

/-- Witness for C5 at a concrete session and machine. -/
theorem C5_witness :
    (∀ a b, (IntentStateMachine.mk [] (fun _ => none)).is_valid_transition a b = true) ∧
      (IntentStateMachine.mk [] (fun _ => none)).infer_trajectory w1s =
        .ok (specTrajectory (IntentStateMachine.mk [] (fun _ => none)).rules w1s) :=
  C5_empty_map_trajectory (IntentStateMachine.mk [] (fun _ => none)) w1s
    (fun _ => rfl) (by decide)

end Istari
